import Mathlib

/-!
Verification development for the Codex usage-acquisition pipeline of
amazing-cli (pkg/provider/codex plus the PTY driver in pkg/provider).

The Go source is shallowly embedded: pure Go functions become Lean
functions over `List Char` / `Int`; stateful code (the acquisition
orchestrator, the JSON-RPC wait loop, the PTY read loop) is modelled by
explicit environments and event traces; fallible Go functions returning
`(T, error)` become `Option` / `Except String`.  Go `time.Time` values
are modelled as `Int` Unix seconds, and the local-timezone renderings
`formatResetTime` / `formatResetTimeWithDate` are taken as function
parameters, since their output depends on the ambient timezone only.
-/

namespace AmazingCli

/-! ## Data model (balance_fetcher.go)

`LimitInfo` and `UsageInfo` mirror the Go structs.  The unused
`UsageInfo.ResetTime` field (a `time.Time` that no strategy ever sets)
is omitted; `LastFetched` is kept as Unix seconds because the cache TTL
check reads it. -/

structure LimitInfo where
  percentage : Int
  display : String
  resetTime : String
deriving Repr, DecidableEq

structure UsageInfo where
  percentage : Int
  display : String
  color : String
  source : String
  lastFetched : Int
  errorMessage : String
  fiveHourLimit : LimitInfo
  weeklyLimit : LimitInfo
deriving Repr, DecidableEq

/-! ## Output parser (balance_fetcher.go, parseStatusOutput)

The parser works on ANSI-stripped text split into lines, and per line
applies Go regular expressions.  Each regexp of the source is embedded
as a hand-rolled matcher with the same leftmost-match semantics; the
character classes involved are pairwise disjoint, so greedy maximal
munch coincides with the RE2 behaviour of the source patterns. -/

/-- Go regexp class `\s`, which is the set tab, newline, form feed,
carriage return, space. -/
def goSpace (c : Char) : Bool :=
  c = '\t' || c = '\n' || c = '\x0c' || c = '\r' || c = ' '

/-- Go regexp class `\w`, which is alphanumerics plus underscore. -/
def goWord (c : Char) : Bool :=
  c.isAlphanum || c = '_'

/-- Tail of the pattern for percentages in the used form: after the
captured numeral the source pattern requires optional spaces, a percent
sign, optional spaces, and the literal text of the unit word. -/
def percentTail (word : List Char) (l : List Char) : Bool :=
  match l.dropWhile goSpace with
  | '%' :: r => word.isPrefixOf (r.dropWhile goSpace)
  | _ => false

/-- Tail for the used-percentage pattern of the source. -/
def usedTail (l : List Char) : Bool :=
  percentTail ("used".data) l

/-- Tail for the left-percentage pattern: the source alternation accepts
the word left or the word remaining after the percent sign. -/
def leftTail (l : List Char) : Bool :=
  percentTail ("left".data) l || percentTail ("remaining".data) l

/-- Try to match a numeral (digits with an optional fractional part,
exactly the capture group of the source percentage patterns) at the head
of `l`, followed by `tail`; returns the captured numeral. -/
def numAt (tail : List Char → Bool) (l : List Char) : Option (List Char) :=
  let d1 := l.takeWhile Char.isDigit
  let rest := l.dropWhile Char.isDigit
  if d1.isEmpty then none
  else
    match rest with
    | '.' :: r2 =>
      let d2 := r2.takeWhile Char.isDigit
      let r3 := r2.dropWhile Char.isDigit
      if !d2.isEmpty && tail r3 then some (d1 ++ '.' :: d2)
      else if tail rest then some d1
      else none
    | _ => if tail rest then some d1 else none

/-- Leftmost match of a percentage pattern over the line, the scan the
Go `FindStringSubmatch` performs. -/
def findNum (tail : List Char → Bool) : List Char → Option (List Char)
  | [] => none
  | c :: r =>
    match numAt tail (c :: r) with
    | some cap => some cap
    | none => findNum tail r

/-- Numeric value of a digit run. -/
def digitsToNat (l : List Char) : Nat :=
  l.foldl (fun a c => a * 10 + (c.toNat - '0'.toNat)) 0

/-- Value of the Go expression `int(strconv.ParseFloat(cap, 64))` on a
captured numeral: truncation toward zero, i.e. the digits before the
decimal point.  This is exact whenever rounding the numeral to float64
does not cross an integer boundary, which holds for every numeral of at
most fifteen significant digits. -/
def capValue (cap : List Char) : Int :=
  Int.ofNat (digitsToNat (cap.takeWhile Char.isDigit))

/-- Leftmost match of the source pattern for relative reset phrases:
the literal text resets-in-space followed by a nonempty capture running
to the end of the line. -/
def findResetIn : List Char → Option (List Char)
  | [] => none
  | c :: r =>
    if ("resets in ".data).isPrefixOf (c :: r) then
      let rest := (c :: r).drop 10
      if rest.isEmpty then findResetIn r else some rest
    else findResetIn r

/-- Match, at the head of `l`, the source pattern for absolute resets
with a date: the literal resets-space, a two-digit hour, a colon, a
two-digit minute, the literal space-on-space, then digits, spaces and
word characters (each run nonempty and maximal).  Returns the two
captured groups. -/
def resetOnAt (l : List Char) : Option (List Char × List Char) :=
  if ("resets ".data).isPrefixOf l then
    match l.drop 7 with
    | h1 :: h2 :: ':' :: m1 :: m2 :: rest =>
      if h1.isDigit && h2.isDigit && m1.isDigit && m2.isDigit then
        if (" on ".data).isPrefixOf rest then
          let afterOn := rest.drop 4
          let d := afterOn.takeWhile Char.isDigit
          let r2 := afterOn.dropWhile Char.isDigit
          let sp := r2.takeWhile goSpace
          let r3 := r2.dropWhile goSpace
          let w := r3.takeWhile goWord
          if d.isEmpty || sp.isEmpty || w.isEmpty then none
          else some ([h1, h2, ':', m1, m2], d ++ sp ++ w)
        else none
      else none
    | _ => none
  else none

/-- Leftmost match of the absolute-reset-with-date pattern. -/
def findResetOn : List Char → Option (List Char × List Char)
  | [] => none
  | c :: r =>
    match resetOnAt (c :: r) with
    | some m => some m
    | none => findResetOn r

/-- Match, at the head of `l`, the source pattern for absolute resets
without a date: the literal resets-space and a two-digit clock time. -/
def resetAtAt (l : List Char) : Option (List Char) :=
  if ("resets ".data).isPrefixOf l then
    match l.drop 7 with
    | h1 :: h2 :: ':' :: m1 :: m2 :: _ =>
      if h1.isDigit && h2.isDigit && m1.isDigit && m2.isDigit then
        some [h1, h2, ':', m1, m2]
      else none
    | _ => none
  else none

/-- Leftmost match of the absolute-reset pattern. -/
def findResetAt : List Char → Option (List Char)
  | [] => none
  | c :: r =>
    match resetAtAt (c :: r) with
    | some m => some m
    | none => findResetAt r

/-- The Go code `stripANSICodes`, embedded with fuel (any fuel at least
the length of the input gives the fixed point): removes every
non-overlapping leftmost match of the CSI escape pattern, i.e. an escape
byte, an opening bracket, parameter bytes, intermediate bytes and one
final byte. -/
def stripANSIFuel : Nat → List Char → List Char
  | 0, l => l
  | fuel + 1, l =>
    match l with
    | [] => []
    | '\x1b' :: '[' :: r2 =>
      match (r2.dropWhile (fun c => c.isDigit || c = ';' || c = '?')).dropWhile
          (fun c => ' ' ≤ c && c ≤ '/') with
      | c :: r5 =>
        if '@' ≤ c && c ≤ '~' then stripANSIFuel fuel r5
        else '\x1b' :: stripANSIFuel fuel ('[' :: r2)
      | [] => '\x1b' :: stripANSIFuel fuel ('[' :: r2)
    | c :: rest => c :: stripANSIFuel fuel rest

/-- `stripANSICodes` of balance_fetcher.go on character lists. -/
def stripANSICodes (l : List Char) : List Char :=
  stripANSIFuel l.length l

/-- Go `bufio.ScanLines` drops one trailing carriage return from a
line. -/
def dropCR (l : List Char) : List Char :=
  if l.getLast? = some '\r' then l.dropLast else l

/-- Split into lines as the `bufio.Scanner` of the source does: tokens
are separated by newlines, each with one trailing carriage return
removed, and a final empty token at the end of input is not produced. -/
def scanLinesFuel : Nat → List Char → List (List Char)
  | 0, _ => []
  | _ + 1, [] => []
  | fuel + 1, l =>
    let before := l.takeWhile (fun c => !(c = '\n'))
    match l.dropWhile (fun c => !(c = '\n')) with
    | [] => [dropCR before]
    | _ :: r => dropCR before :: scanLinesFuel fuel r

/-- Line splitting of the source scanner (fuel instantiated). -/
def scanLines (l : List Char) : List (List Char) :=
  scanLinesFuel l.length l

/-- State threaded through the line loop of `parseStatusOutput`. -/
structure ParseState where
  fiveHourPercent : Int
  fiveHourReset : List Char
  weeklyPercent : Int
  weeklyReset : List Char
  foundFiveHour : Bool
  foundWeekly : Bool
deriving Repr, DecidableEq

def initialParseState : ParseState :=
  { fiveHourPercent := 0, fiveHourReset := [], weeklyPercent := 0,
    weeklyReset := [], foundFiveHour := false, foundWeekly := false }

/-- Go `strings.Contains`: the pattern occurs as a contiguous run. -/
def containsSub (pat : List Char) : List Char → Bool
  | [] => pat.isEmpty
  | c :: r => pat.isPrefixOf (c :: r) || containsSub pat r

/-- Heading test of the five-hour branch of the source. -/
def isFiveHourLine (line : List Char) : Bool :=
  containsSub ("5h limit".data) line || containsSub ("5-hour".data) line

/-- Heading test of the weekly branch of the source. -/
def isWeeklyLine (line : List Char) : Bool :=
  containsSub ("Weekly limit".data) line || containsSub ("weekly".data) line

/-- Body of the five-hour branch: percentage via the used pattern first,
else the left pattern converted by subtraction from one hundred; then
the reset descriptor via the relative, dated, and plain patterns in that
order. -/
def applyFiveHour (st : ParseState) (line : List Char) : ParseState :=
  let st1 :=
    match findNum usedTail line with
    | some cap =>
      { st with fiveHourPercent := capValue cap, foundFiveHour := true }
    | none =>
      match findNum leftTail line with
      | some cap =>
        { st with fiveHourPercent := 100 - capValue cap, foundFiveHour := true }
      | none => st
  match findResetIn line with
  | some r => { st1 with fiveHourReset := r }
  | none =>
    match findResetOn line with
    | some m => { st1 with fiveHourReset := m.1 ++ ' ' :: m.2 }
    | none =>
      match findResetAt line with
      | some m => { st1 with fiveHourReset := m }
      | none => st1

/-- Body of the weekly branch, identical in shape to the five-hour
branch. -/
def applyWeekly (st : ParseState) (line : List Char) : ParseState :=
  let st1 :=
    match findNum usedTail line with
    | some cap =>
      { st with weeklyPercent := capValue cap, foundWeekly := true }
    | none =>
      match findNum leftTail line with
      | some cap =>
        { st with weeklyPercent := 100 - capValue cap, foundWeekly := true }
      | none => st
  match findResetIn line with
  | some r => { st1 with weeklyReset := r }
  | none =>
    match findResetOn line with
    | some m => { st1 with weeklyReset := m.1 ++ ' ' :: m.2 }
    | none =>
      match findResetAt line with
      | some m => { st1 with weeklyReset := m }
      | none => st1

/-- One iteration of the line loop: both branches can fire on the same
line, in source order. -/
def processLine (st : ParseState) (line : List Char) : ParseState :=
  let st1 := if isFiveHourLine line then applyFiveHour st line else st
  if isWeeklyLine line then applyWeekly st1 line else st1

/-- Colour bucket on used percentages, as computed at the end of
`parseStatusOutput`. -/
def usedColor (p : Int) : String :=
  if p ≥ 80 then "red" else if p ≥ 60 then "yellow" else "green"

/-- Display string for a percentage with an optional reset descriptor,
as built by `parseStatusOutput`. -/
def pctDisplay (p : Int) (reset : List Char) : String :=
  if reset.isEmpty then toString p ++ "%"
  else toString p ++ "% (" ++ String.mk reset ++ ")"

/-- The `LimitInfo` records built at the end of `parseStatusOutput`. -/
def mkParsedLimitInfo (p : Int) (reset : List Char) : LimitInfo :=
  { percentage := p, display := pctDisplay p reset,
    resetTime := String.mk reset }

/-- The parse state reached by the line loop of `parseStatusOutput`. -/
def parseStateOf (output : String) : ParseState :=
  (scanLines (stripANSICodes output.data)).foldl processLine
    initialParseState

/-- The epilogue of `parseStatusOutput`: the five-hour value is primary
with the weekly value as fallback, the colour comes from the used
bucket, and both limit records are assembled. -/
def assembleUsage (now : Int) (st : ParseState) : UsageInfo :=
  let primaryPercent :=
    if !st.foundFiveHour && st.foundWeekly then st.weeklyPercent
    else st.fiveHourPercent
  let primaryReset :=
    if !st.foundFiveHour && st.foundWeekly then st.weeklyReset
    else st.fiveHourReset
  { percentage := primaryPercent,
    display := pctDisplay primaryPercent primaryReset,
    color := usedColor primaryPercent,
    source := "cli",
    lastFetched := now,
    errorMessage := "",
    fiveHourLimit := mkParsedLimitInfo st.fiveHourPercent st.fiveHourReset,
    weeklyLimit := mkParsedLimitInfo st.weeklyPercent st.weeklyReset }

/-- `parseStatusOutput` of balance_fetcher.go.  `none` models the error
return (the source message is a failed-to-parse error); `now` models the
`time.Now()` read for `LastFetched`. -/
def parseStatusOutput (now : Int) (output : String) : Option UsageInfo :=
  if !(parseStateOf output).foundFiveHour &&
      !(parseStateOf output).foundWeekly then none
  else some (assembleUsage now (parseStateOf output))

/-! ## RPC conversion (codex_rpc.go)

`RPCRateLimitWindow.usedPercent` models the Go expression
`int(w.UsedPercent)`, the truncation toward zero of the float64 the
JSON decoder produced; the reset instants stay Unix seconds. -/

structure RPCRateLimitWindow where
  usedPercent : Int
  resetsAt : Int
deriving Repr, DecidableEq

structure RPCRateLimitSnapshot where
  primary : Option RPCRateLimitWindow
  secondary : Option RPCRateLimitWindow
deriving Repr, DecidableEq

/-- Colour bucket on remaining percentages, as computed by
`convertRPCToUsageInfo` and `convertOAuthToUsageInfo`. -/
def remainingColor (p : Int) : String :=
  if p ≤ 20 then "red" else if p ≤ 40 then "yellow" else "green"

/-- The window block of `convertRPCToUsageInfo`: remaining percentage is
one hundred minus used, floored at zero; the reset descriptor is
rendered by `fmt` (the timezone-dependent Go formatter) when the reset
instant is positive. -/
def rpcWindowLimitInfo (fmt : Int → String) (w : RPCRateLimitWindow) :
    LimitInfo :=
  let remaining := if 100 - w.usedPercent < 0 then 0 else 100 - w.usedPercent
  let resetTime := if w.resetsAt > 0 then "resets " ++ fmt w.resetsAt else ""
  { percentage := remaining,
    display :=
      if resetTime ≠ "" then
        toString remaining ++ "% left (" ++ resetTime ++ ")"
      else toString remaining ++ "% left",
    resetTime := resetTime }

/-- The Go zero value of the `LimitInfo` struct, produced for an absent
window. -/
def zeroLimitInfo : LimitInfo :=
  { percentage := 0, display := "", resetTime := "" }

/-- `convertRPCToUsageInfo` of codex_rpc.go.  `now` models
`time.Now()`; `fmtT` and `fmtTD` model `formatResetTime` and
`formatResetTimeWithDate`.  `none` models the no-rate-limit-data
error. -/
def convertRPCToUsageInfo (now : Int) (fmtT fmtTD : Int → String)
    (resp : RPCRateLimitSnapshot) : Option UsageInfo :=
  if resp.primary.isNone && resp.secondary.isNone then none
  else
    let fiveHourInfo :=
      match resp.primary with
      | some w => rpcWindowLimitInfo fmtT w
      | none => zeroLimitInfo
    let weeklyInfo :=
      match resp.secondary with
      | some w => rpcWindowLimitInfo fmtTD w
      | none => zeroLimitInfo
    let primaryPercent :=
      if resp.primary.isNone && resp.secondary.isSome then
        weeklyInfo.percentage
      else fiveHourInfo.percentage
    some
      { percentage := primaryPercent,
        display := fiveHourInfo.display,
        color := remainingColor primaryPercent,
        source := "rpc",
        lastFetched := now,
        errorMessage := "",
        fiveHourLimit := fiveHourInfo,
        weeklyLimit := weeklyInfo }

/-! ## OAuth client (the codex OAuth source file)

The credential file of the source carries OAuth tokens and an optional
raw API key; only the fields the fetch path consults are modelled. -/

structure OAuthAuthFile where
  accessToken : String
  accountID : String
  openAIAPIKey : String
deriving Repr, DecidableEq

structure WindowSnapshot where
  usedPercent : Int
  resetAt : Int
deriving Repr, DecidableEq

structure RateLimitDetail where
  primaryWindow : Option WindowSnapshot
  secondaryWindow : Option WindowSnapshot
deriving Repr, DecidableEq

structure OAuthUsageResponse where
  rateLimit : Option RateLimitDetail
deriving Repr, DecidableEq

/-- The window block of `convertOAuthToUsageInfo`; textually the same
computation as the RPC one, on the OAuth window type whose used
percentage is already an integer in the source. -/
def oauthWindowLimitInfo (fmt : Int → String) (w : WindowSnapshot) :
    LimitInfo :=
  let remaining := if 100 - w.usedPercent < 0 then 0 else 100 - w.usedPercent
  let resetTime := if w.resetAt > 0 then "resets " ++ fmt w.resetAt else ""
  { percentage := remaining,
    display :=
      if resetTime ≠ "" then
        toString remaining ++ "% left (" ++ resetTime ++ ")"
      else toString remaining ++ "% left",
    resetTime := resetTime }

/-- `convertOAuthToUsageInfo` of the OAuth source file. -/
def convertOAuthToUsageInfo (now : Int) (fmtT fmtTD : Int → String)
    (resp : OAuthUsageResponse) : Option UsageInfo :=
  match resp.rateLimit with
  | none => none
  | some rl =>
    let fiveHourInfo :=
      match rl.primaryWindow with
      | some w => oauthWindowLimitInfo fmtT w
      | none => zeroLimitInfo
    let weeklyInfo :=
      match rl.secondaryWindow with
      | some w => oauthWindowLimitInfo fmtTD w
      | none => zeroLimitInfo
    let primaryPercent :=
      if rl.primaryWindow.isNone && rl.secondaryWindow.isSome then
        weeklyInfo.percentage
      else fiveHourInfo.percentage
    some
      { percentage := primaryPercent,
        display := fiveHourInfo.display,
        color := remainingColor primaryPercent,
        source := "oauth",
        lastFetched := now,
        errorMessage := "",
        fiveHourLimit := fiveHourInfo,
        weeklyLimit := weeklyInfo }

/-- `loadOAuthCredentials`: the argument models the read-and-decode of
the credential file (`Except.error` for a missing or unparseable file);
a file with neither an access token nor a raw API key is rejected. -/
def loadOAuthCredentials (file : Except String OAuthAuthFile) :
    Except String OAuthAuthFile :=
  match file with
  | Except.error e => Except.error e
  | Except.ok a =>
    if a.accessToken = "" && a.openAIAPIKey = "" then
      Except.error "no valid credentials found in auth.json"
    else Except.ok a

/-- Outcome of the HTTPS GET of `FetchUsageViaOAuth`: network failure, a
two-hundred with a decoded (or undecodable) body, a four-oh-one or
four-oh-three, or any other status. -/
inductive HTTPOutcome where
  | netErr
  | ok (body : Option OAuthUsageResponse)
  | authErr
  | otherStatus (code : Nat)
deriving Repr, DecidableEq

/-- `FetchUsageViaOAuth`.  The boolean of the result records whether the
HTTP request was issued, which the claims about the no-credential paths
inspect.  Error strings follow the source messages. -/
def fetchUsageViaOAuth (now : Int) (fmtT fmtTD : Int → String)
    (authFile : Except String OAuthAuthFile) (http : HTTPOutcome) :
    Except String UsageInfo × Bool :=
  match loadOAuthCredentials authFile with
  | Except.error e => (Except.error e, false)
  | Except.ok creds =>
    if creds.openAIAPIKey ≠ "" && creds.accessToken = "" then
      (Except.error "API key mode does not support OAuth usage API", false)
    else
      (match http with
       | HTTPOutcome.netErr => Except.error "request failed"
       | HTTPOutcome.authErr =>
         Except.error "unauthorized: token may be expired, run codex to re-authenticate"
       | HTTPOutcome.otherStatus code =>
         Except.error ("API error " ++ toString code)
       | HTTPOutcome.ok none => Except.error "failed to parse response"
       | HTTPOutcome.ok (some resp) =>
         match convertOAuthToUsageInfo now fmtT fmtTD resp with
         | none => Except.error "no rate limit data in response"
         | some u => Except.ok u,
       true)

/-! ## JSON-RPC client (codex_rpc.go, sendRequest)

The response-wait loop of `sendRequest` is a select over context
cancellation, a fixed timeout, the reader error channel, and the line
channel; an execution is modelled as the sequence of events the select
delivers.  A decoded line carries the decoded `id` field (`none` for a
notification without an id), the optional `error.message`, and the raw
`result`. -/

/-- The decoded JSON id of a response line.  `num` carries the Go value
`int(v)` of a numeric id; `other` is any non-numeric id, for which the
source leaves its integer id variable at zero. -/
inductive JsonID where
  | num (v : Int)
  | other
deriving Repr, DecidableEq

/-- The integer the source compares against the pending request id. -/
def jsonIDToInt : JsonID → Int
  | JsonID.num v => v
  | JsonID.other => 0

structure RPCLine where
  id : Option JsonID
  error : Option String
  result : String
deriving Repr, DecidableEq

inductive RPCEvent where
  | ctxDone
  | timeout
  | readErr (msg : String)
  | lineClosed
  | invalidLine
  | line (m : RPCLine)
deriving Repr, DecidableEq

/-- The fixed response timeout of `sendRequest`, in seconds: the
`timeout` event models this timer firing. -/
def rpcResponseTimeoutSeconds : Nat := 15

/-- The wait loop of `sendRequest` for pending id `id` over a trace of
select events.  `none` means the trace ended with the call still
blocked; otherwise the call returns the matched result or fails. -/
def awaitResponse (id : Int) : List RPCEvent → Option (Except String String)
  | [] => none
  | RPCEvent.ctxDone :: _ => some (Except.error "context canceled")
  | RPCEvent.timeout :: _ =>
    some (Except.error "timeout waiting for response")
  | RPCEvent.readErr msg :: _ =>
    some (Except.error ("error reading stdout: " ++ msg))
  | RPCEvent.lineClosed :: _ => some (Except.error "stdout closed")
  | RPCEvent.invalidLine :: rest => awaitResponse id rest
  | RPCEvent.line m :: rest =>
    match m.id with
    | none => awaitResponse id rest
    | some j =>
      if jsonIDToInt j ≠ id then awaitResponse id rest
      else
        match m.error with
        | some emsg => some (Except.error ("RPC error: " ++ emsg))
        | none => some (Except.ok m.result)

/-- The id counter of the client; `NewCodexRPCClient` starts it at
one. -/
structure RPCClientState where
  nextID : Int
deriving Repr, DecidableEq

def initialRPCClientState : RPCClientState := { nextID := 1 }

/-- The allocation step at the top of `sendRequest` (under the client
mutex): take the counter, then increment it. -/
def allocRequestID (st : RPCClientState) : Int × RPCClientState :=
  (st.nextID, { nextID := st.nextID + 1 })

/-- `sendRequest`: allocate the id, then wait on the event trace. -/
def sendRequest (st : RPCClientState) (events : List RPCEvent) :
    Option (Except String String) × RPCClientState :=
  let alloc := allocRequestID st
  (awaitResponse alloc.1 events, alloc.2)

/-! ## PTY automation (runCodexStatus in the non-windows PTY source)

One iteration of the read loop is one `PtyReadEvent`.  The wall clock is
abstracted into per-event flags: `ceilingExceeded` models the top-of-
loop comparison of the elapsed time against the overall ceiling, and
`pastStatusWindow` models the comparison of the time since the status
command was sent against the five-second window (consulted only when
the command was sent on an earlier iteration, exactly as the elapsed
time is only then larger than zero).  The answers the source writes back
for terminal queries do not change the transcript or the control flow
and are not modelled.  An exhausted trace models the clock reaching the
ceiling with no further reads. -/

inductive PtyErrKind where
  | okRead
  | timeoutErr
  | canceledErr
  | otherErr
deriving Repr, DecidableEq

structure PtyReadEvent where
  ceilingExceeded : Bool
  data : List Char
  err : PtyErrKind
deriving Repr, DecidableEq

structure PtyState where
  buf : List Char
  sentStatus : Bool
  readyForStatus : Bool
deriving Repr, DecidableEq

structure PtyOutcome where
  result : Except String (List Char)
  killed : Bool
deriving Repr

/-- The epilogue after the loop breaks: the process is killed, and an
empty transcript is an error. -/
def ptyFinish (buf : List Char) : PtyOutcome :=
  { result :=
      if buf.isEmpty then Except.error "no output from codex /status"
      else Except.ok buf,
    killed := true }

/-- The extra short reads the source performs after the limit heading
appears, before breaking: up to five events, keeping the data of those
that returned bytes without an error. -/
def drainReads : Nat → List PtyReadEvent → List Char
  | 0, _ => []
  | _ + 1, [] => []
  | k + 1, e :: rest =>
    (if !e.data.isEmpty && e.err = PtyErrKind.okRead then e.data else [])
      ++ drainReads k rest

/-- The pastStatusWindow flag of the next event models the five-second
check; it rides on the event so the loop body stays a pure function of
the trace.  Events are consulted in order; the flag of an event is the
truth value of the five-second comparison at that iteration. -/
structure PtyTimedEvent where
  ev : PtyReadEvent
  pastStatusWindow : Bool
deriving Repr, DecidableEq

/-- The read loop of `runCodexStatus`.  Mirrors the source body: top-of-
loop ceiling check; on read bytes append to the transcript, detect the
ready prompt, send the status command once (an error on that write
returns at once, before the kill at the bottom of the function), then
look for a limit heading (drain a few more reads and stop) or give up
five seconds after sending; an unrecoverable read error stops the loop,
a timeout or cancellation error does not. -/
def runCodexStatusLoop (writeFails : Bool) (st : PtyState) :
    List PtyTimedEvent → PtyOutcome
  | [] => ptyFinish st.buf
  | te :: rest =>
    let e := te.ev
    if e.ceilingExceeded then ptyFinish st.buf
    else
      if !e.data.isEmpty then
        let buf1 := st.buf ++ e.data
        let clean := stripANSICodes buf1
        let ready1 := st.readyForStatus ||
          (containsSub ("›".data) clean &&
            containsSub ("context left".data) clean)
        if ready1 && !st.sentStatus && writeFails then
          { result := Except.error "failed to send /status command",
            killed := false }
        else
          let sent1 := st.sentStatus || ready1
          if sent1 &&
              (containsSub ("5h limit".data) clean ||
                containsSub ("Weekly limit".data) clean) then
            ptyFinish (buf1 ++ drainReads 5 (rest.map PtyTimedEvent.ev))
          else if st.sentStatus && te.pastStatusWindow then
            ptyFinish buf1
          else if e.err = PtyErrKind.otherErr then
            ptyFinish buf1
          else
            runCodexStatusLoop writeFails
              { buf := buf1, sentStatus := sent1, readyForStatus := ready1 }
              rest
      else
        if e.err = PtyErrKind.otherErr then ptyFinish st.buf
        else runCodexStatusLoop writeFails st rest

/-- `runCodexStatus`: the loop from the zero state. -/
def runCodexStatus (writeFails : Bool) (events : List PtyTimedEvent) :
    PtyOutcome :=
  runCodexStatusLoop writeFails
    { buf := [], sentStatus := false, readyForStatus := false } events

/-! ## Acquisition orchestrator (balance_fetcher.go, GetUsage)

One call is a pure function of an environment carrying the clock, the
cache read, and the outcome each live strategy would produce if
attempted (`none` models the strategy failing).  The result records the
returned snapshot, what was written to the cache, and which live
strategies were attempted, in order. -/

inductive Strategy where
  | oauth
  | rpc
  | cli
deriving Repr, DecidableEq

structure GetUsageEnv where
  now : Int
  cache : Option UsageInfo
  oauth : Option UsageInfo
  rpc : Option UsageInfo
  cli : Option UsageInfo
deriving Repr, DecidableEq

structure GetUsageResult where
  usage : UsageInfo
  savedToCache : Option UsageInfo
  attempted : List Strategy
deriving Repr, DecidableEq

/-- The cache TTL of `NewUsageFetcher`, five minutes in seconds. -/
def cacheTTLSeconds : Int := 300

/-- The freshness test of `GetUsage`: the elapsed time since the cached
fetch is below the TTL. -/
def cacheIsFresh (now : Int) (cached : UsageInfo) : Bool :=
  now - cached.lastFetched < cacheTTLSeconds

/-- Whether the cache read short-circuits the live chain. -/
def cacheGate (env : GetUsageEnv) : Bool :=
  match env.cache with
  | some cached => cacheIsFresh env.now cached
  | none => false

/-- The sentinel snapshot `GetUsage` returns when every strategy
fails. -/
def defaultUsageInfo (now : Int) : UsageInfo :=
  { percentage := 0, display := "?%", color := "green", source := "default",
    lastFetched := now, errorMessage := "unable to fetch usage data",
    fiveHourLimit := { percentage := 0, display := "?%", resetTime := "" },
    weeklyLimit := { percentage := 0, display := "?%", resetTime := "" } }

/-- The live chain of `GetUsage`: OAuth, then RPC, then the CLI PTY,
each attempted once, the first success saved to the cache and
returned. -/
def getUsageLive (env : GetUsageEnv) : GetUsageResult :=
  match env.oauth with
  | some u => { usage := u, savedToCache := some u, attempted := [Strategy.oauth] }
  | none =>
    match env.rpc with
    | some u =>
      { usage := u, savedToCache := some u,
        attempted := [Strategy.oauth, Strategy.rpc] }
    | none =>
      match env.cli with
      | some u =>
        { usage := u, savedToCache := some u,
          attempted := [Strategy.oauth, Strategy.rpc, Strategy.cli] }
      | none =>
        { usage := defaultUsageInfo env.now, savedToCache := none,
          attempted := [Strategy.oauth, Strategy.rpc, Strategy.cli] }

/-- `GetUsage` of balance_fetcher.go: a fresh cache record is returned
at once retagged as cache, otherwise the live chain runs. -/
def getUsage (env : GetUsageEnv) : GetUsageResult :=
  match env.cache with
  | some cached =>
    if cacheIsFresh env.now cached then
      { usage := { cached with source := "cache" }, savedToCache := none,
        attempted := [] }
    else getUsageLive env
  | none => getUsageLive env

/-! ## Auxiliary definitions used by the statements -/

/-- Severity rank of a colour bucket: healthy below caution below
critical. -/
def colorSeverity (c : String) : Nat :=
  if c = "red" then 2 else if c = "yellow" then 1 else 0

/-- A five-hour limit transcript line in the used form. -/
def fiveHourUsedLine (n : Nat) : String :=
  "5h limit: " ++ toString n ++ "% used"

/-- A five-hour limit transcript line in the left form. -/
def fiveHourLeftLine (n : Nat) : String :=
  "5h limit: " ++ toString n ++ "% left"

/-- A concrete environment with a fresh cache record, used as a witness
input. -/
def envFreshCache : GetUsageEnv :=
  { now := 100, cache := some (defaultUsageInfo 0), oauth := none,
    rpc := none, cli := none }

/-- A concrete environment with a stale cache record and a succeeding
RPC strategy, used as a witness input. -/
def envStaleCacheRPC : GetUsageEnv :=
  { now := 1000, cache := some (defaultUsageInfo 0), oauth := none,
    rpc := some (defaultUsageInfo 7), cli := none }

/-- The empty environment: no cache, every strategy failing. -/
def envAllFail : GetUsageEnv :=
  { now := 0, cache := none, oauth := none, rpc := none, cli := none }

/-- A matching RPC response line, used as a witness input. -/
def rpcLineMatching : RPCLine :=
  { id := some (JsonID.num 3), error := none, result := "data" }

/-- A non-matching RPC response line, used as a witness input. -/
def rpcLineOther : RPCLine :=
  { id := some (JsonID.num 7), error := none, result := "data" }

/-- A PTY read event delivering the ready prompt. -/
def ptyReadyChunk : PtyTimedEvent :=
  { ev := { ceilingExceeded := false, data := ("› context left".data),
            err := PtyErrKind.okRead },
    pastStatusWindow := false }

/-- A PTY read event delivering the limit heading. -/
def ptyStatusChunk : PtyTimedEvent :=
  { ev := { ceilingExceeded := false, data := ("5h limit: 45% used".data),
            err := PtyErrKind.okRead },
    pastStatusWindow := false }

/-! ## Theorems -/

/-- Severity of the used bucket as a function of the percentage. -/
theorem colorSeverity_usedColor (r : Int) :
    colorSeverity (usedColor r) =
      if r ≥ 80 then 2 else if r ≥ 60 then 1 else 0 := by
  unfold usedColor
  split_ifs <;> decide

/-- Severity of the remaining bucket as a function of the
percentage. -/
theorem colorSeverity_remainingColor (r : Int) :
    colorSeverity (remainingColor r) =
      if r ≤ 20 then 2 else if r ≤ 40 then 1 else 0 := by
  unfold remainingColor
  split_ifs <;> decide

/-- Characterisation of the used bucket. -/
theorem usedColor_iff (r : Int) :
    (usedColor r = "red" ↔ 80 ≤ r) ∧
    (usedColor r = "yellow" ↔ 60 ≤ r ∧ r < 80) ∧
    (usedColor r = "green" ↔ r < 60) := by
  unfold usedColor
  split_ifs with h1 h2 <;>
    refine ⟨Iff.intro (fun hA => ?_) (fun hA => ?_),
      Iff.intro (fun hA => ?_) (fun hA => ?_),
      Iff.intro (fun hA => ?_) (fun hA => ?_)⟩ <;>
    first
      | rfl
      | exact h1
      | exact absurd hA (by decide)
      | omega

/-- Characterisation of the remaining bucket. -/
theorem remainingColor_iff (r : Int) :
    (remainingColor r = "red" ↔ r ≤ 20) ∧
    (remainingColor r = "yellow" ↔ 20 < r ∧ r ≤ 40) ∧
    (remainingColor r = "green" ↔ 40 < r) := by
  unfold remainingColor
  split_ifs with h1 h2 <;>
    refine ⟨Iff.intro (fun hB => ?_) (fun hB => ?_),
      Iff.intro (fun hB => ?_) (fun hB => ?_),
      Iff.intro (fun hB => ?_) (fun hB => ?_)⟩ <;>
    first
      | rfl
      | exact h1
      | exact absurd hB (by decide)
      | omega

/-- C5: the colour bucket is monotone in the percentage under both
conventions: under the used convention severity is non-decreasing in the
percentage, with yellow starting at sixty and red at eighty, and under
the remaining convention severity is non-increasing in the percentage,
with red at most twenty and yellow at most forty; the parser and the
RPC and OAuth conversions use exactly these buckets on their primary
percentage. -/
theorem colorBucket_monotone (p q : Int) :
    (p ≤ q → colorSeverity (usedColor p) ≤ colorSeverity (usedColor q)) ∧
    (p ≤ q → colorSeverity (remainingColor q) ≤ colorSeverity (remainingColor p)) ∧
    (usedColor p = "red" ↔ 80 ≤ p) ∧
    (usedColor p = "yellow" ↔ 60 ≤ p ∧ p < 80) ∧
    (usedColor p = "green" ↔ p < 60) ∧
    (remainingColor p = "red" ↔ p ≤ 20) ∧
    (remainingColor p = "yellow" ↔ 20 < p ∧ p ≤ 40) ∧
    (remainingColor p = "green" ↔ 40 < p) ∧
    (∀ now output u, parseStatusOutput now output = some u →
      u.color = usedColor u.percentage) ∧
    (∀ now fmtT fmtTD resp u,
      convertRPCToUsageInfo now fmtT fmtTD resp = some u →
      u.color = remainingColor u.percentage) ∧
    (∀ now fmtT fmtTD resp u,
      convertOAuthToUsageInfo now fmtT fmtTD resp = some u →
      u.color = remainingColor u.percentage) := by
  refine ⟨?_, ?_, (usedColor_iff p).1, (usedColor_iff p).2.1,
    (usedColor_iff p).2.2, (remainingColor_iff p).1,
    (remainingColor_iff p).2.1, (remainingColor_iff p).2.2, ?_, ?_, ?_⟩
  · intro hpq
    rw [colorSeverity_usedColor, colorSeverity_usedColor]
    split_ifs <;> omega
  · intro hpq
    rw [colorSeverity_remainingColor, colorSeverity_remainingColor]
    split_ifs <;> omega
  · intro now output u hu
    unfold parseStatusOutput at hu
    split at hu
    · exact absurd hu (by simp)
    · simp only [Option.some.injEq] at hu
      subst hu
      rfl
  · intro now fmtT fmtTD resp u hu
    unfold convertRPCToUsageInfo at hu
    split at hu
    · exact absurd hu (by simp)
    · simp only [Option.some.injEq] at hu
      subst hu
      rfl
  · intro now fmtT fmtTD resp u hu
    unfold convertOAuthToUsageInfo at hu
    cases hr : resp.rateLimit with
    | none => rw [hr] at hu; exact absurd hu (by simp)
    | some rl =>
      rw [hr] at hu
      simp only [Option.some.injEq] at hu
      subst hu
      rfl

/-- C9: the OAuth strategy fails without issuing any HTTP request when
the credential file has neither an access token nor a raw API key, and
also when it has only a raw API key with no access token, which
self-reports as inapplicable. -/
theorem fetchUsageViaOAuth_no_request_without_token (now : Int)
    (fmtT fmtTD : Int → String) (http : HTTPOutcome) (a : OAuthAuthFile) :
    (a.accessToken = "" → a.openAIAPIKey = "" →
      fetchUsageViaOAuth now fmtT fmtTD (Except.ok a) http =
        (Except.error "no valid credentials found in auth.json", false)) ∧
    (a.openAIAPIKey ≠ "" → a.accessToken = "" →
      fetchUsageViaOAuth now fmtT fmtTD (Except.ok a) http =
        (Except.error "API key mode does not support OAuth usage API",
          false)) := by
  constructor
  · intro h1 h2
    unfold fetchUsageViaOAuth loadOAuthCredentials
    simp [h1, h2]
  · intro h1 h2
    unfold fetchUsageViaOAuth loadOAuthCredentials
    simp [h1, h2]

/-- C9 witness: concrete credential files exercising both failure
paths. -/
theorem fetchUsageViaOAuth_no_request_without_token_witness :
    fetchUsageViaOAuth 0 (fun _ => "") (fun _ => "")
      (Except.ok { accessToken := "", accountID := "", openAIAPIKey := "" })
      HTTPOutcome.netErr =
      (Except.error "no valid credentials found in auth.json", false) ∧
    fetchUsageViaOAuth 0 (fun _ => "") (fun _ => "")
      (Except.ok { accessToken := "", accountID := "", openAIAPIKey := "sk" })
      HTTPOutcome.netErr =
      (Except.error "API key mode does not support OAuth usage API",
        false) :=
  ⟨(fetchUsageViaOAuth_no_request_without_token 0 (fun _ => "")
      (fun _ => "") HTTPOutcome.netErr
      { accessToken := "", accountID := "", openAIAPIKey := "" }).1 rfl rfl,
   (fetchUsageViaOAuth_no_request_without_token 0 (fun _ => "")
      (fun _ => "") HTTPOutcome.netErr
      { accessToken := "", accountID := "", openAIAPIKey := "sk" }).2
      (by decide) rfl⟩

/-- C10: a response carrying only the secondary weekly window produces a
snapshot whose top-level percentage is the weekly remaining value while
its top-level display is the empty string, for both the RPC and the
OAuth conversion, because the display is always taken from the absent
five-hour window. -/
theorem convert_secondary_only_empty_display (now : Int)
    (fmtT fmtTD : Int → String) (w : RPCRateLimitWindow)
    (v : WindowSnapshot) :
    (∃ u, convertRPCToUsageInfo now fmtT fmtTD
        (RPCRateLimitSnapshot.mk none (some w)) = some u ∧
      u.display = "" ∧ u.percentage = u.weeklyLimit.percentage ∧
      u.weeklyLimit = rpcWindowLimitInfo fmtTD w) ∧
    (∃ u, convertOAuthToUsageInfo now fmtT fmtTD
        (OAuthUsageResponse.mk
          (some (RateLimitDetail.mk none (some v)))) = some u ∧
      u.display = "" ∧ u.percentage = u.weeklyLimit.percentage ∧
      u.weeklyLimit = oauthWindowLimitInfo fmtTD v) := by
  constructor
  · exact ⟨_, rfl, rfl, rfl, rfl⟩
  · exact ⟨_, rfl, rfl, rfl, rfl⟩

/-- C1: `GetUsage` tries the strategies in the fixed order cache, then
OAuth, then RPC, then the CLI PTY, attempts each live strategy at most
once and returns the first success; a cached record younger than the
five-minute TTL is returned at once tagged as cache with no live
strategy attempted, and a stale or absent record makes every prior live
strategy get attempted in order. -/
theorem getUsage_strategy_order (env : GetUsageEnv) :
    ((getUsage env).attempted = [] ∨
     (getUsage env).attempted = [Strategy.oauth] ∨
     (getUsage env).attempted = [Strategy.oauth, Strategy.rpc] ∨
     (getUsage env).attempted =
       [Strategy.oauth, Strategy.rpc, Strategy.cli]) ∧
    (∀ c, env.cache = some c → cacheIsFresh env.now c = true →
      getUsage env =
        { usage := { c with source := "cache" }, savedToCache := none,
          attempted := [] }) ∧
    (cacheGate env = false → ∀ u, env.oauth = some u →
      getUsage env =
        { usage := u, savedToCache := some u,
          attempted := [Strategy.oauth] }) ∧
    (cacheGate env = false → env.oauth = none → ∀ u, env.rpc = some u →
      getUsage env =
        { usage := u, savedToCache := some u,
          attempted := [Strategy.oauth, Strategy.rpc] }) ∧
    (cacheGate env = false → env.oauth = none → env.rpc = none →
      ∀ u, env.cli = some u →
      getUsage env =
        { usage := u, savedToCache := some u,
          attempted := [Strategy.oauth, Strategy.rpc, Strategy.cli] }) := by
  have hlive : (getUsageLive env).attempted = [Strategy.oauth] ∨
      (getUsageLive env).attempted = [Strategy.oauth, Strategy.rpc] ∨
      (getUsageLive env).attempted =
        [Strategy.oauth, Strategy.rpc, Strategy.cli] := by
    cases ho : env.oauth with
    | some u => simp [getUsageLive, ho]
    | none =>
      cases hr : env.rpc with
      | some u => simp [getUsageLive, ho, hr]
      | none =>
        cases hl : env.cli with
        | some u => simp [getUsageLive, ho, hr, hl]
        | none => simp [getUsageLive, ho, hr, hl]
  refine ⟨?_, ?_, ?_, ?_, ?_⟩
  · cases hcc : env.cache with
    | none =>
      rcases hlive with h | h | h <;> simp [getUsage, hcc, h]
    | some c =>
      cases hf : cacheIsFresh env.now c with
      | true => simp [getUsage, hcc, hf]
      | false =>
        rcases hlive with h | h | h <;> simp [getUsage, hcc, hf, h]
  · intro c hcc hfresh
    simp [getUsage, hcc, hfresh]
  · intro hg u hu
    have hget : getUsage env = getUsageLive env := by
      cases hcc : env.cache with
      | none => simp [getUsage, hcc]
      | some c =>
        simp only [cacheGate, hcc] at hg
        simp [getUsage, hcc, hg]
    rw [hget]
    simp [getUsageLive, hu]
  · intro hg ho u hu
    have hget : getUsage env = getUsageLive env := by
      cases hcc : env.cache with
      | none => simp [getUsage, hcc]
      | some c =>
        simp only [cacheGate, hcc] at hg
        simp [getUsage, hcc, hg]
    rw [hget]
    simp [getUsageLive, ho, hu]
  · intro hg ho hr u hu
    have hget : getUsage env = getUsageLive env := by
      cases hcc : env.cache with
      | none => simp [getUsage, hcc]
      | some c =>
        simp only [cacheGate, hcc] at hg
        simp [getUsage, hcc, hg]
    rw [hget]
    simp [getUsageLive, ho, hr, hu]

/-- C1 witness: a fresh cache short-circuits; with a stale cache the
chain runs to the RPC strategy when OAuth fails. -/
theorem getUsage_strategy_order_witness :
    getUsage envFreshCache =
      { usage := { defaultUsageInfo 0 with source := "cache" },
        savedToCache := none, attempted := [] } ∧
    getUsage envStaleCacheRPC =
      { usage := defaultUsageInfo 7,
        savedToCache := some (defaultUsageInfo 7),
        attempted := [Strategy.oauth, Strategy.rpc] } :=
  ⟨(getUsage_strategy_order envFreshCache).2.1 (defaultUsageInfo 0)
      rfl (by decide),
   (getUsage_strategy_order envStaleCacheRPC).2.2.2.1 (by decide) rfl
      (defaultUsageInfo 7) rfl⟩

/-- C2: when the cache is stale or absent and all three live strategies
fail, `GetUsage` returns the sentinel snapshot: source default,
non-empty error message, zero-valued five-hour and weekly windows,
nothing written to the cache, and no error raised (the function is
total and returns a snapshot). -/
theorem getUsage_all_fail_sentinel (env : GetUsageEnv)
    (hc : cacheGate env = false) (ho : env.oauth = none)
    (hr : env.rpc = none) (hl : env.cli = none) :
    getUsage env =
      { usage := defaultUsageInfo env.now, savedToCache := none,
        attempted := [Strategy.oauth, Strategy.rpc, Strategy.cli] } ∧
    (getUsage env).usage.source = "default" ∧
    (getUsage env).usage.errorMessage ≠ "" ∧
    (getUsage env).usage.fiveHourLimit.percentage = 0 ∧
    (getUsage env).usage.fiveHourLimit.resetTime = "" ∧
    (getUsage env).usage.weeklyLimit.percentage = 0 ∧
    (getUsage env).usage.weeklyLimit.resetTime = "" ∧
    (getUsage env).savedToCache = none := by
  have hmain : getUsage env =
      { usage := defaultUsageInfo env.now, savedToCache := none,
        attempted := [Strategy.oauth, Strategy.rpc, Strategy.cli] } := by
    have hget : getUsage env = getUsageLive env := by
      cases hcc : env.cache with
      | none => simp [getUsage, hcc]
      | some c =>
        simp only [cacheGate, hcc] at hc
        simp [getUsage, hcc, hc]
    rw [hget]
    simp [getUsageLive, ho, hr, hl]
  refine ⟨hmain, ?_, ?_, ?_, ?_, ?_, ?_, ?_⟩ <;> rw [hmain] <;>
    first
      | rfl
      | (intro hfalse;
         exact absurd hfalse
           (show ¬("unable to fetch usage data" = "") by decide))

/-- C2 witness: the empty environment. -/
theorem getUsage_all_fail_sentinel_witness :
    getUsage envAllFail =
      { usage := defaultUsageInfo 0, savedToCache := none,
        attempted := [Strategy.oauth, Strategy.rpc, Strategy.cli] } ∧
    (getUsage envAllFail).usage.errorMessage ≠ "" :=
  ⟨(getUsage_all_fail_sentinel envAllFail rfl rfl rfl rfl).1,
   (getUsage_all_fail_sentinel envAllFail rfl rfl rfl rfl).2.2.1⟩

/-- C8: `sendRequest` allocates a fresh strictly larger integer id per
call; the wait loop skips lines that are not valid JSON, have no id, or
have a non-matching id; a line with the matching id yields its result,
or a failure carrying the error message when an error object is
present; and a timeout event, context cancellation, or reader error
fails the call, the timeout being the fixed fifteen-second timer. -/
theorem sendRequest_spec (st : RPCClientState) (events : List RPCEvent)
    (id : Int) (rest : List RPCEvent) (m : RPCLine) (msg : String) :
    ((sendRequest st events).1 = awaitResponse st.nextID events ∧
     (sendRequest st events).2.nextID = st.nextID + 1 ∧
     (allocRequestID st).1 < (allocRequestID (allocRequestID st).2).1) ∧
    (awaitResponse id (RPCEvent.invalidLine :: rest) =
      awaitResponse id rest) ∧
    (m.id = none → awaitResponse id (RPCEvent.line m :: rest) =
      awaitResponse id rest) ∧
    (∀ j, m.id = some j → jsonIDToInt j ≠ id →
      awaitResponse id (RPCEvent.line m :: rest) =
        awaitResponse id rest) ∧
    (∀ j, m.id = some j → jsonIDToInt j = id → m.error = none →
      awaitResponse id (RPCEvent.line m :: rest) =
        some (Except.ok m.result)) ∧
    (∀ j, m.id = some j → jsonIDToInt j = id → m.error = some msg →
      awaitResponse id (RPCEvent.line m :: rest) =
        some (Except.error ("RPC error: " ++ msg))) ∧
    (awaitResponse id (RPCEvent.timeout :: rest) =
      some (Except.error "timeout waiting for response") ∧
     rpcResponseTimeoutSeconds = 15) ∧
    (awaitResponse id (RPCEvent.ctxDone :: rest) =
      some (Except.error "context canceled")) ∧
    (awaitResponse id (RPCEvent.readErr msg :: rest) =
      some (Except.error ("error reading stdout: " ++ msg))) := by
  obtain ⟨mid, merr, mres⟩ := m
  refine ⟨⟨rfl, rfl, by simp [allocRequestID]⟩, rfl, ?_, ?_, ?_, ?_,
    ⟨rfl, rfl⟩, rfl, rfl⟩
  · intro hid
    subst hid
    rfl
  · intro j hid hne
    subst hid
    simp [awaitResponse, hne]
  · intro j hid heq herr
    subst hid herr
    simp [awaitResponse, heq]
  · intro j hid heq herr
    subst hid herr
    simp [awaitResponse, heq]

/-- C8 witness: a matching line is answered, and a mismatched line is
skipped so that a later timeout fails the call. -/
theorem sendRequest_spec_witness :
    awaitResponse 3 [RPCEvent.line rpcLineMatching] =
      some (Except.ok "data") ∧
    awaitResponse 3 [RPCEvent.line rpcLineOther, RPCEvent.timeout] =
      some (Except.error "timeout waiting for response") := by
  constructor
  · exact (sendRequest_spec initialRPCClientState [] 3 []
      rpcLineMatching "").2.2.2.2.1 (JsonID.num 3) rfl rfl rfl
  · rw [(sendRequest_spec initialRPCClientState [] 3 [RPCEvent.timeout]
      rpcLineOther "").2.2.2.1 (JsonID.num 7) rfl (by decide)]
    exact ((sendRequest_spec initialRPCClientState [] 3 []
      rpcLineOther "").2.2.2.2.2.2.1).1

/-- C5 witness: concrete percentages through the buckets. -/
theorem colorBucket_monotone_witness :
    colorSeverity (usedColor 50) ≤ colorSeverity (usedColor 70) ∧
    colorSeverity (remainingColor 45) ≤ colorSeverity (remainingColor 15) :=
  ⟨(colorBucket_monotone 50 70).1 (by decide),
   (colorBucket_monotone 15 45).2.1 (by decide)⟩

/-- C3 counterexample: the numeral forty-two point five in the used form
parses to forty-two, while its complement fifty-seven point five in the
left form parses to forty-three, so the complement law fails on this
decimal input. -/
theorem parseStatusOutput_complement_decimal_cex :
    (parseStatusOutput 0 ("5h limit: 42.5% used")).map
      UsageInfo.percentage = some 42 ∧
    (parseStatusOutput 0 ("5h limit: 57.5% left")).map
      UsageInfo.percentage = some 43 ∧
    ¬((parseStatusOutput 0 ("5h limit: 42.5% used")).map
        UsageInfo.percentage =
      (parseStatusOutput 0 ("5h limit: 57.5% left")).map
        UsageInfo.percentage) := by
  decide

/-- C3 amended: for every integer percentage between zero and one
hundred the used form and the complementary left form parse to the same
used percentage, and decimal numerals are truncated toward zero; for a
non-integer percentage the two forms can differ by one, because the
truncation is applied after the subtraction on the left form. -/
theorem parseStatusOutput_complement_integer :
    (∀ N : Fin 101,
      (parseStatusOutput 0 (fiveHourUsedLine N.val)).map
        UsageInfo.percentage = some (N.val : Int) ∧
      (parseStatusOutput 0 (fiveHourLeftLine (100 - N.val))).map
        UsageInfo.percentage = some (N.val : Int)) ∧
    (parseStatusOutput 0 ("5h limit: 42.5% used")).map
      (fun u => u.fiveHourLimit.percentage) = some 42 := by
  decide

/-- C6 counterexample: the transcript parser does not clamp: a used
numeral above one hundred is stored as is, and a left numeral above one
hundred produces a negative window percentage. -/
theorem limitWindow_range_cex :
    (parseStatusOutput 0 ("5h limit: 150% used")).map
      (fun u => u.fiveHourLimit.percentage) = some 150 ∧
    (parseStatusOutput 0 ("5h limit: 150% left")).map
      (fun u => u.fiveHourLimit.percentage) = some (-50) ∧
    ¬((150 : Int) ≤ 100) ∧ ¬((0 : Int) ≤ -50) := by
  decide

/-- C6 amended: the OAuth and RPC window conversions compute one hundred
minus the used percentage floored at zero for both windows, so their
percentages are at least zero and, whenever the reported used percentage
is nonnegative, at most one hundred; the transcript parser stores its
values without clamping. -/
theorem limitWindow_range_amended (fmt : Int → String)
    (w : RPCRateLimitWindow) (v : WindowSnapshot) :
    (0 ≤ (rpcWindowLimitInfo fmt w).percentage ∧
     (rpcWindowLimitInfo fmt w).percentage = max 0 (100 - w.usedPercent) ∧
     (0 ≤ w.usedPercent → (rpcWindowLimitInfo fmt w).percentage ≤ 100)) ∧
    (0 ≤ (oauthWindowLimitInfo fmt v).percentage ∧
     (oauthWindowLimitInfo fmt v).percentage = max 0 (100 - v.usedPercent) ∧
     (0 ≤ v.usedPercent → (oauthWindowLimitInfo fmt v).percentage ≤ 100)) := by
  have hmax : ∀ x : Int, (if x < 0 then (0 : Int) else x) = max 0 x := by
    intro x
    split_ifs with h
    · exact (max_eq_left h.le).symm
    · exact (max_eq_right (not_lt.mp h)).symm
  refine ⟨⟨?_, ?_, fun hw => ?_⟩, ⟨?_, ?_, fun hv => ?_⟩⟩
  · show 0 ≤ (if 100 - w.usedPercent < 0 then (0 : Int)
      else 100 - w.usedPercent)
    split_ifs with h <;> omega
  · exact hmax (100 - w.usedPercent)
  · show (if 100 - w.usedPercent < 0 then (0 : Int)
      else 100 - w.usedPercent) ≤ 100
    split_ifs with h <;> omega
  · show 0 ≤ (if 100 - v.usedPercent < 0 then (0 : Int)
      else 100 - v.usedPercent)
    split_ifs with h <;> omega
  · exact hmax (100 - v.usedPercent)
  · show (if 100 - v.usedPercent < 0 then (0 : Int)
      else 100 - v.usedPercent) ≤ 100
    split_ifs with h <;> omega

/-- C6 amended witness: concrete windows on both sides of the floor. -/
theorem limitWindow_range_amended_witness :
    (rpcWindowLimitInfo (fun _ => "")
      { usedPercent := 50, resetsAt := 0 }).percentage ≤ 100 ∧
    0 ≤ (oauthWindowLimitInfo (fun _ => "")
      { usedPercent := 120, resetAt := 0 }).percentage :=
  ⟨((limitWindow_range_amended (fun _ => "")
      { usedPercent := 50, resetsAt := 0 }
      { usedPercent := 120, resetAt := 0 }).1.2.2 (by decide)),
   (limitWindow_range_amended (fun _ => "")
      { usedPercent := 50, resetsAt := 0 }
      { usedPercent := 120, resetAt := 0 }).2.1⟩

/-- C7: on the path where the ready prompt was seen and the write of the
status command fails, `runCodexStatus` returns without killing the
subprocess, while the success path and the ceiling path do kill it; so
the kill is not performed on every exit path. -/
theorem runCodexStatus_write_failure_not_killed :
    (runCodexStatus true [ptyReadyChunk]).killed = false ∧
    (runCodexStatus true [ptyReadyChunk]).result =
      Except.error "failed to send /status command" ∧
    (runCodexStatus false [ptyReadyChunk, ptyStatusChunk]).killed = true ∧
    (runCodexStatus false []).killed = true := by
  refine ⟨rfl, rfl, rfl, rfl⟩

/-- The weekly branch leaves the five-hour fields unchanged. -/
theorem applyWeekly_fiveHour_fields (st : ParseState) (line : List Char) :
    (applyWeekly st line).fiveHourPercent = st.fiveHourPercent ∧
    (applyWeekly st line).fiveHourReset = st.fiveHourReset ∧
    (applyWeekly st line).foundFiveHour = st.foundFiveHour := by
  unfold applyWeekly
  rcases h1 : findNum usedTail line with _ | cap1 <;>
    rcases h2 : findNum leftTail line with _ | cap2 <;>
    rcases h3 : findResetIn line with _ | r3 <;>
    rcases h4 : findResetOn line with _ | r4 <;>
    rcases h5 : findResetAt line with _ | r5 <;>
    simp [h1, h2, h3, h4, h5]

/-- A line without a five-hour heading leaves the five-hour fields
unchanged. -/
theorem processLine_no_fiveHour (st : ParseState) (line : List Char)
    (h : isFiveHourLine line = false) :
    (processLine st line).fiveHourPercent = st.fiveHourPercent ∧
    (processLine st line).fiveHourReset = st.fiveHourReset ∧
    (processLine st line).foundFiveHour = st.foundFiveHour := by
  unfold processLine
  by_cases hw : isWeeklyLine line = true
  · simp only [h, hw, Bool.false_eq_true, if_false, if_true]
    exact applyWeekly_fiveHour_fields st line
  · simp [h, hw]

/-- Folding the line loop over lines without a five-hour heading leaves
the five-hour fields unchanged. -/
theorem foldl_no_fiveHour (lines : List (List Char)) (st : ParseState)
    (h : ∀ l ∈ lines, isFiveHourLine l = false) :
    (lines.foldl processLine st).fiveHourPercent = st.fiveHourPercent ∧
    (lines.foldl processLine st).fiveHourReset = st.fiveHourReset ∧
    (lines.foldl processLine st).foundFiveHour = st.foundFiveHour := by
  induction lines generalizing st with
  | nil => exact ⟨rfl, rfl, rfl⟩
  | cons a t ih =>
    have ha := h a (by simp)
    have ht : ∀ l ∈ t, isFiveHourLine l = false := fun l hl =>
      h l (by simp [hl])
    have h1 := processLine_no_fiveHour st a ha
    have h2 := ih (processLine st a) ht
    simp only [List.foldl_cons]
    exact ⟨h2.1.trans h1.1, h2.2.1.trans h1.2.1, h2.2.2.trans h1.2.2⟩

/-- C4: a transcript with no five-hour heading whose weekly section
yields a percentage parses successfully to a zero-valued five-hour
window with the overall primary percentage equal to the weekly value;
a transcript in which neither section yields a percentage is a parse
failure. -/
theorem parseStatusOutput_weekly_only (output : String) (now : Int) :
    ((∀ l ∈ scanLines (stripANSICodes output.data),
        isFiveHourLine l = false) →
      (parseStateOf output).foundWeekly = true →
      ∃ u, parseStatusOutput now output = some u ∧
        u.fiveHourLimit.percentage = 0 ∧
        u.fiveHourLimit.resetTime = "" ∧
        u.percentage = u.weeklyLimit.percentage) ∧
    ((parseStateOf output).foundFiveHour = false →
      (parseStateOf output).foundWeekly = false →
      parseStatusOutput now output = none) := by
  constructor
  · intro h5 hw
    have hp := foldl_no_fiveHour (scanLines (stripANSICodes output.data))
      initialParseState h5
    have hpct : (parseStateOf output).fiveHourPercent = 0 := hp.1
    have hrst : (parseStateOf output).fiveHourReset = [] := hp.2.1
    have hff : (parseStateOf output).foundFiveHour = false := hp.2.2
    refine ⟨assembleUsage now (parseStateOf output), ?_, ?_, ?_, ?_⟩
    · unfold parseStatusOutput
      rw [hff, hw]
      rfl
    · show (mkParsedLimitInfo (parseStateOf output).fiveHourPercent
        (parseStateOf output).fiveHourReset).percentage = 0
      rw [mkParsedLimitInfo, hpct]
    · show (mkParsedLimitInfo (parseStateOf output).fiveHourPercent
        (parseStateOf output).fiveHourReset).resetTime = ""
      rw [mkParsedLimitInfo, hrst]
    · show (if !(parseStateOf output).foundFiveHour &&
            (parseStateOf output).foundWeekly then
          (parseStateOf output).weeklyPercent
        else (parseStateOf output).fiveHourPercent) =
        (mkParsedLimitInfo (parseStateOf output).weeklyPercent
          (parseStateOf output).weeklyReset).percentage
      rw [hff, hw]
      rfl
  · intro hf hw
    unfold parseStatusOutput
    rw [hf, hw]
    rfl

/-- C4 witness: a weekly-only transcript and a transcript with no usage
data. -/
theorem parseStatusOutput_weekly_only_witness :
    (∃ u, parseStatusOutput 0
        ("Weekly limit: 30% used (resets in 3 days)") = some u ∧
      u.fiveHourLimit.percentage = 0 ∧
      u.fiveHourLimit.resetTime = "" ∧
      u.percentage = u.weeklyLimit.percentage) ∧
    parseStatusOutput 0 ("Codex session ready") = none :=
  ⟨(parseStatusOutput_weekly_only
      ("Weekly limit: 30% used (resets in 3 days)") 0).1
      (by decide) (by decide),
   (parseStatusOutput_weekly_only ("Codex session ready") 0).2
      (by decide) (by decide)⟩

end AmazingCli
